import Mathlib

/-!
Verification model of the git-worktree management scripts
(`git-worktree-utils.ts`, `git-worktree-add.ts`, `git-worktree-remove.ts`).

The TypeScript sources are shallowly embedded: every backend interaction
(`git ...` invocation, prompt, `process.cwd()`) is a field of an explicit
`GitState`; the scripts' control flow is translated into pure functions
that return the exit code, the `console.log` lines in order, the backend
mutation commands issued, and the paths emitted through the
`WORKTREE_PATH:` gateway line.  JavaScript string primitives
(`trim`, `split`, `endsWith`, `replace(/\/\.git$/,"")`, `toLowerCase`,
truthiness of strings) are modelled character-exactly on `List Char`.
-/

/-- Whitespace class used by the JS `trim` / `\s` constructs
(ASCII part; the scripts only handle ASCII command output). -/
def jsIsSpace (c : Char) : Bool :=
  c == ' ' || c == '\t' || c == '\n' || c == '\r' || c == '\x0b' || c == '\x0c'

/-- JS `String.prototype.trim` (character-level model). -/
def jsTrim (s : String) : String :=
  String.mk (((s.data.dropWhile jsIsSpace).reverse.dropWhile jsIsSpace).reverse)

/-- Splitting on a single separator character, JS `str.split(sep)` semantics:
the result always has one more entry than the number of separators
(so `""` splits to `[""]`). -/
def splitOnCharGo (sep : Char) : List Char → List Char → List String
  | [], acc => [String.mk acc.reverse]
  | c :: rest, acc =>
    if c = sep then String.mk acc.reverse :: splitOnCharGo sep rest []
    else splitOnCharGo sep rest (c :: acc)

/-- JS `str.split(sep)` for a one-character separator. -/
def splitOnChar (sep : Char) (s : String) : List String :=
  splitOnCharGo sep s.data []

/-- JS `str.split("\n")`. -/
def splitLines (s : String) : List String := splitOnChar '\n' s

/-- JS `str.split(/\s+/)`: splits on maximal whitespace runs; a leading
run contributes an initial `""`, a trailing run a final `""`,
and `""` splits to `[""]`. -/
def jsSplitWsGo : Bool → List Char → List Char → List String
  | _, [], acc => [String.mk acc.reverse]
  | prevWs, c :: rest, acc =>
    if jsIsSpace c then
      if prevWs then jsSplitWsGo true rest acc
      else String.mk acc.reverse :: jsSplitWsGo true rest []
    else jsSplitWsGo false rest (c :: acc)

/-- JS `str.split(/\s+/)`. -/
def jsSplitWs (s : String) : List String := jsSplitWsGo false s.data []

/-- JS `str.endsWith(suffix)` (character-level model). -/
def strEndsWith (s suffix : String) : Bool :=
  List.isSuffixOf suffix.data s.data

/-- Test for the structured gateway line: does the line start with the
literal `WORKTREE_PATH:` marker (character-level model of the shell
wrapper's `grep "^WORKTREE_PATH:"`). -/
def isWorktreePathLine (line : String) : Bool :=
  List.isPrefixOf ("WORKTREE_PATH:".data) line.data

/-- Number of structured `WORKTREE_PATH:` lines in an output transcript. -/
def countStructured (out : List String) : Nat :=
  out.countP isWorktreePathLine

/-- JS `str.toLowerCase` (ASCII model). -/
def strToLower (s : String) : String :=
  String.mk (s.data.map Char.toLower)

/-- JS truthiness of `Array.prototype.find`'s result on a string array:
`undefined` and `""` are falsy, every other string is truthy. -/
def jsTruthyOptStr : Option String → Bool
  | none => false
  | some s => !(s == "")

/-- `currentDir.split("/").pop()`: the last `/`-separated component. -/
def lastPathComponent (s : String) : String :=
  (splitOnChar '/' s).getLastD ""

/-- Remainder of the character list after the first occurrence of `pat`
(the way the unanchored JS regex `refs\/remotes\/origin\/(.+)` captures
greedily to the end of the string). -/
def dropAfterFirst (pat : List Char) : List Char → Option (List Char)
  | [] => none
  | c :: rest =>
    if List.isPrefixOf pat (c :: rest) then some ((c :: rest).drop pat.length)
    else dropAfterFirst pat rest

/-- `remoteHead.match(/refs\/remotes\/origin\/(.+)/)`: the captured group,
when the pattern matches somewhere in the string. -/
def remoteHeadMatch (s : String) : Option String :=
  match dropAfterFirst ("refs/remotes/origin/".data) s.data with
  | some rest => if rest = [] then none else some (String.mk rest)
  | none => none

/-- `firstBranch.replace(/^\*?\s*/, "")`: drop one optional leading `*`,
then any following whitespace run. -/
def stripSelectionMarker (s : String) : String :=
  match s.data with
  | '*' :: rest => String.mk (rest.dropWhile jsIsSpace)
  | cs => String.mk (cs.dropWhile jsIsSpace)

/-- One invocation's view of the git backend and of the interactive
environment.  Every field is read by exactly the backend call it names;
`none` in an `Option` field means that backend call errors (throws). -/
structure GitState where
  /-- `git rev-parse --git-dir` succeeds (we are inside a repository). -/
  validRepo : Bool
  /-- Trimmed stdout of
  `git symbolic-ref refs/remotes/origin/HEAD 2>/dev/null || echo ""`. -/
  remoteHead : String
  /-- Branch names `b` for which `git show-ref --verify --quiet refs/heads/b`
  exits 0. -/
  localBranches : List String
  /-- Branch names `b` for which
  `git show-ref --verify --quiet refs/remotes/origin/b` exits 0. -/
  remoteBranches : List String
  /-- Stdout of `git branch --list`; `none` when the command throws. -/
  branchListStdout : Option String
  /-- Stdout of `git worktree list`; `none` when the query itself errors. -/
  worktreeListStdout : Option String
  /-- `process.cwd()`. -/
  currentDir : String
  /-- Trimmed stdout of `git -C path branch --show-current`
  (`""` in a detached state). -/
  currentBranchAt : String → String
  /-- Reply typed at the confirmation prompt; `none` models an
  interrupted prompt (Ctrl+C), which `askForConfirmation` catches. -/
  answer : Option String
  /-- `git worktree add ...` succeeds. -/
  worktreeAddSucceeds : Bool
  /-- `git checkout <mainBranch>` at the base succeeds. -/
  checkoutMainSucceeds : Bool
  /-- `git checkout --detach <mainBranch>` succeeds. -/
  detachSucceeds : Bool
  /-- `git worktree remove <dir> --force` succeeds. -/
  worktreeRemoveSucceeds : Bool

/-- `branchExistsLocally` from `git-worktree-utils.ts`. -/
def branchExistsLocally (st : GitState) (branchName : String) : Bool :=
  st.localBranches.contains branchName

/-- Existence of `refs/remotes/origin/<branchName>` (the remote probe
inside `discoverMainBranch`). -/
def remoteBranchExists (st : GitState) (branchName : String) : Bool :=
  st.remoteBranches.contains branchName

/-- The `for (const branchName of commonMainBranches)` loop of
`discoverMainBranch`: first name that exists locally, else remotely;
paired with the `console.log` line the hit produces. -/
def tryCommonBranches (st : GitState) : List String → Option (String × List String)
  | [] => none
  | b :: rest =>
    if branchExistsLocally st b then
      some (b, ["Using main branch: " ++ b])
    else if remoteBranchExists st b then
      some (b, ["Using main branch: " ++ b ++ " (from remote)"])
    else tryCommonBranches st rest

/-- `discoverMainBranch` from `git-worktree-utils.ts`, returning the
chosen branch together with the `console.log` lines it prints. -/
def discoverMainBranchWithLog (st : GitState) : String × List String :=
  match remoteHeadMatch st.remoteHead with
  | some defaultBranch =>
    (defaultBranch, ["Using default branch: " ++ defaultBranch])
  | none =>
    match tryCommonBranches st ["main", "develop", "dev", "master"] with
    | some hit => hit
    | none =>
      match st.branchListStdout with
      | none => ("main", ["Using default fallback: main"])
      | some out =>
        let firstBranch := stripSelectionMarker ((splitLines (jsTrim out)).headD "")
        if firstBranch == "" then ("main", ["Using default fallback: main"])
        else (firstBranch, ["Using fallback branch: " ++ firstBranch])

/-- The branch name returned by `discoverMainBranch`. -/
def discoverMainBranch (st : GitState) : String :=
  (discoverMainBranchWithLog st).1

/-- Chain written from the specification's words (§4.2): remote symbolic
default-branch pointer; else the first of `main`, `develop`, `dev`,
`master` existing locally or remote-tracking; else the first entry of the
local branch listing with leading selection markers stripped; else the
literal fallback `main`. -/
def discoverMainBranchSpec (st : GitState) : String :=
  match remoteHeadMatch st.remoteHead with
  | some defaultBranch => defaultBranch
  | none =>
    match ["main", "develop", "dev", "master"].find?
        (fun b => branchExistsLocally st b || remoteBranchExists st b) with
    | some b => b
    | none =>
      match st.branchListStdout with
      | none => "main"
      | some out =>
        let firstBranch := stripSelectionMarker ((splitLines (jsTrim out)).headD "")
        if firstBranch == "" then "main" else firstBranch

/-- Parsing of `git worktree list` stdout in `getWorktreePaths`:
trim, split into lines, keep each line's first whitespace-separated
column, drop empty results. -/
def parseWorktreeList (stdout : String) : List String :=
  ((splitLines (jsTrim stdout)).map (fun line => (jsSplitWs line).headD "")).filter
    (fun p => 0 < p.length)

/-- `getWorktreePaths`; `none` when the `git worktree list` query errors. -/
def getWorktreePaths (st : GitState) : Option (List String) :=
  st.worktreeListStdout.map parseWorktreeList

/-- `bareGitPath.replace(/\/\.git$/, "")`: remove a trailing `/.git`
segment; any other string is returned unchanged. -/
def stripGitSuffix (path : String) : String :=
  if strEndsWith path "/.git" then String.mk (path.data.take (path.data.length - 5))
  else path

/-- `determineWorktreeBase` from `git-worktree-utils.ts`.  `none` models
the `TypeError` that `Array.prototype.reduce` throws on an empty array
with no initial value (caught by every caller's generic handler). -/
def determineWorktreeBase (worktreePaths : List String) : Option String :=
  match worktreePaths.find? (fun path => strEndsWith path ".git") with
  | some bareGitPath => some (stripGitSuffix bareGitPath)
  | none =>
    match worktreePaths with
    | [] => none
    | first :: rest =>
      some (rest.foldl
        (fun shortest current =>
          if current.length < shortest.length then current else shortest) first)

/-- `isCurrentDirectoryWorktree` from `git-worktree-utils.ts`; its
`catch` turns every backend error into `false`. -/
def isCurrentDirectoryWorktree (st : GitState) : Bool :=
  match getWorktreePaths st with
  | none => false
  | some worktreePaths =>
    match determineWorktreeBase worktreePaths with
    | none => false
    | some worktreeBase =>
      !(st.currentDir == worktreeBase) && worktreePaths.contains st.currentDir

/-- `askForConfirmation` from `git-worktree-remove.ts`: affirmative iff
the lowercased answer is `y` or `yes`; an interrupted prompt is a decline. -/
def askForConfirmation (st : GitState) : Bool :=
  match st.answer with
  | none => false
  | some answer => strToLower answer == "y" || strToLower answer == "yes"

/-- Backend mutation commands (and the process-directory change) issued
by an operation, in order. -/
inductive Effect where
  /-- `git worktree add <path> <branch>`. -/
  | worktreeAdd (path branch : String)
  /-- `git worktree add <path> <startPoint> -b <newBranch>`. -/
  | worktreeAddNew (path startPoint newBranch : String)
  /-- `process.chdir(path)`. -/
  | chdir (path : String)
  /-- `git checkout <branch>`. -/
  | checkout (branch : String)
  /-- `git checkout --detach <branch>`. -/
  | checkoutDetach (branch : String)
  /-- `git worktree remove <path> --force`. -/
  | worktreeRemove (path : String)
  deriving DecidableEq, Repr

/-- Which of the three `add` transitions the lifecycle controller selected. -/
inductive AddTransition where
  | switch
  | createFromExisting
  | createWithNewBranch
  deriving DecidableEq, Repr

/-- Outcome of one `gwtadd` invocation: exit code, ordered
`console.log` transcript, issued backend commands, paths emitted through
the gateway (`switchToDirectory`), and the selected transition. -/
structure AddResult where
  exitCode : Nat
  output : List String
  effects : List Effect
  emitted : List String
  transition : Option AddTransition
  deriving DecidableEq, Repr

/-- `main` of `git-worktree-add.ts` (the `gwtadd` command). -/
def addMain (st : GitState) (args : List String) : AddResult :=
  match args with
  | [] => ⟨1, ["Usage: gwtadd <branch-name>"], [], [], none⟩
  | branchName :: _ =>
    if st.validRepo then
      let mainBranch := discoverMainBranch st
      let dlog := (discoverMainBranchWithLog st).2
      match getWorktreePaths st with
      | none =>
        ⟨1, dlog ++ ["Error managing worktree:", "git worktree list failed"],
         [], [], none⟩
      | some worktreePaths =>
        match determineWorktreeBase worktreePaths with
        | none =>
          ⟨1, dlog ++ ["Error managing worktree:",
               "Reduce of empty array with no initial value"], [], [], none⟩
        | some worktreeBase =>
          let targetPath := worktreeBase ++ "/" ++ branchName
          let existingWorktree := worktreePaths.find? (fun p => p == targetPath)
          if jsTruthyOptStr existingWorktree then
            ⟨0, dlog ++ ["Switched to existing worktree: " ++ targetPath,
                 "On branch: " ++ st.currentBranchAt targetPath,
                 "WORKTREE_PATH:" ++ targetPath],
             [], [targetPath], some .switch⟩
          else if branchExistsLocally st branchName then
            if st.worktreeAddSucceeds then
              ⟨0, dlog ++ ["Created worktree with existing branch: " ++ targetPath,
                   "On branch: " ++ st.currentBranchAt targetPath,
                   "WORKTREE_PATH:" ++ targetPath],
               [.worktreeAdd targetPath branchName], [targetPath],
               some .createFromExisting⟩
            else
              ⟨1, dlog ++ ["Error managing worktree:", "git worktree add failed"],
               [.worktreeAdd targetPath branchName], [], some .createFromExisting⟩
          else
            if st.worktreeAddSucceeds then
              ⟨0, dlog ++ ["Created and switched to new worktree: " ++ targetPath,
                   "Created new branch \x27" ++ branchName ++ "\x27 from \x27" ++
                     mainBranch ++ "\x27",
                   "On branch: " ++ st.currentBranchAt targetPath,
                   "WORKTREE_PATH:" ++ targetPath],
               [.worktreeAddNew targetPath mainBranch branchName], [targetPath],
               some .createWithNewBranch⟩
            else
              ⟨1, dlog ++ ["Error managing worktree:", "git worktree add failed"],
               [.worktreeAddNew targetPath mainBranch branchName], [],
               some .createWithNewBranch⟩
    else
      ⟨1, ["Error managing worktree:", "Not in a git repository"], [], [], none⟩

/-- Classified failure kinds of the `remove` operation (which code path
reported the failure). -/
inductive FailureKind where
  /-- `validateGitRepository` threw. -/
  | notARepository
  /-- The `isCurrentDirectoryWorktree` guard failed. -/
  | notInWorktree
  /-- The generic `catch` of `main` fired after the guard
  (post-confirmation backend query or mutation error). -/
  | backendError
  deriving DecidableEq, Repr

/-- Outcome of one `gwtremove` invocation. -/
structure RemoveResult where
  exitCode : Nat
  output : List String
  effects : List Effect
  emitted : List String
  failure : Option FailureKind
  cancelled : Bool
  deriving DecidableEq, Repr

/-- Tail of `main` of `git-worktree-remove.ts` from the
`git worktree remove` step on, given the transcript and effects
accumulated so far. -/
def removeFinish (st : GitState) (forceRemove : Bool)
    (currentDir worktreeBase mainBranch : String)
    (out : List String) (effs : List Effect) : RemoveResult :=
  let out := out ++ ["🗑️  Removing worktree: " ++ currentDir]
  let effs := effs ++ [Effect.worktreeRemove currentDir]
  if st.worktreeRemoveSucceeds then
    let out := out ++ ["✅ Worktree removed successfully"]
    let out := if forceRemove then out ++ ["WORKTREE_PATH:" ++ worktreeBase] else out
    let emitted := if forceRemove then [worktreeBase] else []
    let mainRepoCurrentBranch := st.currentBranchAt worktreeBase
    let out := out ++ ["🌿 On branch: " ++ mainRepoCurrentBranch]
    let out := out ++
      (if mainRepoCurrentBranch ≠ mainBranch then
        ["💡 Tip: You might want to switch to the main branch (" ++ mainBranch ++ ")"]
      else [])
    ⟨0, out, effs, emitted, none, false⟩
  else
    ⟨1, out ++ ["❌ Error removing worktree:", "git worktree remove failed"],
     effs, [], some .backendError, false⟩

/-- `main` of `git-worktree-remove.ts` (the `gwtremove` command). -/
def removeMain (st : GitState) (args : List String) : RemoveResult :=
  let forceRemove := args.contains "--force" || args.contains "-f"
  if st.validRepo then
    if isCurrentDirectoryWorktree st then
      let currentDir := st.currentDir
      let currentBranch := st.currentBranchAt currentDir
      let worktreeName := lastPathComponent currentDir
      let header := ["📍 Current worktree: " ++ worktreeName,
                     "🌿 Current branch: " ++ currentBranch,
                     "📁 Path: " ++ currentDir]
      let confirmed := forceRemove || askForConfirmation st
      if confirmed then
        match getWorktreePaths st with
        | none =>
          ⟨1, header ++ ["❌ Error removing worktree:", "git worktree list failed"],
           [], [], some .backendError, false⟩
        | some worktreePaths =>
          match determineWorktreeBase worktreePaths with
          | none =>
            ⟨1, header ++ ["❌ Error removing worktree:",
                 "Reduce of empty array with no initial value"],
             [], [], some .backendError, false⟩
          | some worktreeBase =>
            let mainBranch := discoverMainBranch st
            let dlog := (discoverMainBranchWithLog st).2
            let out := header ++ dlog ++
              ["📂 Changed to main repository: " ++ worktreeBase,
               "🌿 Switching to main branch: " ++ mainBranch]
            let effs := [Effect.chdir worktreeBase, Effect.checkout mainBranch]
            if st.checkoutMainSucceeds then
              removeFinish st forceRemove currentDir worktreeBase mainBranch out effs
            else
              let out := out ++
                ["⚠️  Main branch is checked out elsewhere, using detached HEAD instead"]
              let effs := effs ++ [Effect.checkoutDetach mainBranch]
              if st.detachSucceeds then
                removeFinish st forceRemove currentDir worktreeBase mainBranch out effs
              else
                ⟨1, out ++ ["❌ Error removing worktree:", "git checkout --detach failed"],
                 effs, [], some .backendError, false⟩
      else
        ⟨0, header ++ ["❌ Operation cancelled."], [], [], none, true⟩
    else
      ⟨1, ["❌ Error: Not in a git worktree. Use this command from within a worktree directory."],
       [], [], some .notInWorktree, false⟩
  else
    ⟨1, ["❌ Error removing worktree:", "Not in a git repository"],
     [], [], some .notARepository, false⟩

/-- A concrete backend state used by witnesses and counterexamples:
a standard (non-bare) layout with base `/repo`, one secondary worktree
`/repo/feat` attached to branch `feat`, local branches `main` and `feat`,
no remote, the process positioned inside `/repo/feat`, and a user who
answers `n` at the prompt. -/
def witnessSt : GitState where
  validRepo := true
  remoteHead := ""
  localBranches := ["main", "feat"]
  remoteBranches := []
  branchListStdout := some "* main\n  feat"
  worktreeListStdout := some "/repo       abc123 [main]\n/repo/feat  def456 [feat]"
  currentDir := "/repo/feat"
  currentBranchAt := fun _ => "main"
  answer := some "n"
  worktreeAddSucceeds := true
  checkoutMainSucceeds := true
  detachSucceeds := true
  worktreeRemoveSucceeds := true

/-! ## Helper lemmas -/

theorem countStructured_append (a b : List String) :
    countStructured (a ++ b) = countStructured a + countStructured b :=
  List.countP_append _ _ _

theorem tryCommonBranches_fst (st : GitState) (l : List String) :
    (tryCommonBranches st l).map Prod.fst =
      l.find? (fun b => branchExistsLocally st b || remoteBranchExists st b) := by
  induction l with
  | nil => rfl
  | cons b rest ih =>
    by_cases hl : branchExistsLocally st b = true
    · simp [tryCommonBranches, List.find?_cons, hl]
    · rw [Bool.not_eq_true] at hl
      by_cases hr : remoteBranchExists st b = true
      · simp [tryCommonBranches, List.find?_cons, hl, hr]
      · rw [Bool.not_eq_true] at hr
        simp [tryCommonBranches, List.find?_cons, hl, hr, ih]

theorem countStructured_tryCommon (st : GitState) :
    ∀ (l : List String) (hit : String × List String),
      tryCommonBranches st l = some hit → countStructured hit.2 = 0 := by
  intro l
  induction l with
  | nil => intro hit h; simp [tryCommonBranches] at h
  | cons b rest ih =>
    intro hit h
    unfold tryCommonBranches at h
    split at h
    · cases h; rfl
    · split at h
      · cases h; rfl
      · exact ih hit h

theorem countStructured_discoverLog (st : GitState) :
    countStructured (discoverMainBranchWithLog st).2 = 0 := by
  unfold discoverMainBranchWithLog
  cases h : remoteHeadMatch st.remoteHead with
  | some b => rfl
  | none =>
    cases h2 : tryCommonBranches st ["main", "develop", "dev", "master"] with
    | some hit => exact countStructured_tryCommon st _ hit h2
    | none =>
      cases h3 : st.branchListStdout with
      | none => rfl
      | some out =>
        by_cases h4 :
            (stripSelectionMarker ((splitLines (jsTrim out)).headD "") == "") = true
        · simp only [h4, if_pos]; rfl
        · rw [Bool.not_eq_true] at h4
          simp only [h4, Bool.false_eq_true, if_false]
          rfl

theorem jsTruthy_find_eq_contains (l : List String) (t : String) (ht : ¬ t = "") :
    jsTruthyOptStr (l.find? (fun p => p == t)) = l.contains t := by
  induction l with
  | nil => rfl
  | cons p ps ih =>
    by_cases hp : p = t
    · subst hp
      have hb : (p == p) = true := beq_self_eq_true p
      simp [List.find?_cons, hb, jsTruthyOptStr, List.contains_cons, ht]
    · have hb : (p == t) = false := beq_eq_false_iff_ne.mpr hp
      have hb2 : (t == p) = false := beq_eq_false_iff_ne.mpr (Ne.symm hp)
      simp [List.find?_cons, hb, hb2, ih, List.contains_cons, Ne.symm hp]

theorem targetPath_ne_empty (base bn : String) : ¬ base ++ "/" ++ bn = "" := by
  intro h
  have h2 := congrArg String.data h
  simp [String.data_append] at h2

theorem strEndsWith_append_self (d suf : String) : strEndsWith (d ++ suf) suf = true := by
  unfold strEndsWith
  rw [String.data_append, List.isSuffixOf_iff_suffix]
  exact List.suffix_append _ _

theorem strEndsWith_exists_of_true (s suf : String)
    (h : strEndsWith s suf = true) : ∃ d : String, s = d ++ suf := by
  unfold strEndsWith at h
  rw [List.isSuffixOf_iff_suffix] at h
  obtain ⟨pre, hpre⟩ := h
  refine ⟨String.mk pre, ?_⟩
  apply String.ext
  rw [String.data_append, hpre]

theorem stripGitSuffix_of_append (d : String) :
    stripGitSuffix (d ++ "/.git") = d := by
  unfold stripGitSuffix
  rw [strEndsWith_append_self]
  simp only [if_pos]
  apply String.ext
  show ((d ++ "/.git").data.take ((d ++ "/.git").data.length - 5)) = d.data
  rw [String.data_append]
  have h5 : ("/.git" : String).data.length = 5 := rfl
  rw [List.length_append, h5]
  have : d.data.length + 5 - 5 = d.data.length := by omega
  rw [this]
  exact List.take_left _ _

theorem stripGitSuffix_of_not_slashgit (s : String)
    (h : strEndsWith s "/.git" = false) : stripGitSuffix s = s := by
  unfold stripGitSuffix
  rw [h]
  simp

theorem foldl_argAux_some (rest : List String) : ∀ a : String,
    rest.foldl (List.argAux fun b c => String.length b < String.length c) (some a)
      = some (rest.foldl
          (fun shortest current =>
            if current.length < shortest.length then current else shortest) a) := by
  induction rest with
  | nil => intro a; rfl
  | cons b bs ih =>
    intro a
    rw [List.foldl_cons, List.foldl_cons]
    have harg : (List.argAux (fun b c => String.length b < String.length c) (some a) b)
        = some (if b.length < a.length then b else a) := by
      unfold List.argAux
      by_cases hcmp : b.length < a.length
      · simp [hcmp]
      · simp [hcmp]
    rw [harg, ih]

theorem argmin_eq_foldl (first : String) (rest : List String) :
    List.argmin String.length (first :: rest)
      = some (rest.foldl
          (fun shortest current =>
            if current.length < shortest.length then current else shortest) first) := by
  unfold List.argmin
  rw [List.foldl_cons]
  exact foldl_argAux_some rest first

theorem foldl_shortest_spec (first : String) (rest : List String) :
    (rest.foldl
        (fun shortest current =>
          if current.length < shortest.length then current else shortest) first)
        ∈ (first :: rest) ∧
      (∀ q ∈ first :: rest,
        (rest.foldl
          (fun shortest current =>
            if current.length < shortest.length then current else shortest) first).length
          ≤ q.length) ∧
      (∀ q ∈ first :: rest,
        q.length
          ≤ (rest.foldl
              (fun shortest current =>
                if current.length < shortest.length then current else shortest)
              first).length →
          (first :: rest).indexOf
              (rest.foldl
                (fun shortest current =>
                  if current.length < shortest.length then current else shortest) first)
            ≤ (first :: rest).indexOf q) := by
  have h := argmin_eq_foldl first rest
  have hm : (rest.foldl
      (fun shortest current =>
        if current.length < shortest.length then current else shortest) first)
      ∈ List.argmin String.length (first :: rest) := by
    rw [h]; rfl
  exact ⟨List.argmin_mem hm, fun q hq => List.le_of_mem_argmin hq hm,
    fun q hq hle => List.index_of_argmin hm hq hle⟩

/-! ## Claims about `discoverMainBranch` and `determineWorktreeBase` -/

/-- C2: `discoverMainBranch` returns the first match of the ordered chain
(remote symbolic default-branch pointer; then `main`, `develop`, `dev`,
`master`, each checked locally then remote-tracking; then the first
branch-listing entry with leading selection markers stripped; then the
literal fallback `main`), and — being a total function whose every
backend error is caught — it returns some branch name for every
repository state. -/
theorem discoverMainBranch_ordered_chain (st : GitState) :
    discoverMainBranch st = discoverMainBranchSpec st := by
  unfold discoverMainBranch discoverMainBranchWithLog discoverMainBranchSpec
  rw [← tryCommonBranches_fst]
  cases h : remoteHeadMatch st.remoteHead with
  | some b => rfl
  | none =>
    cases h2 : tryCommonBranches st ["main", "develop", "dev", "master"] with
    | some hit => rfl
    | none =>
      cases h3 : st.branchListStdout with
      | none => rfl
      | some out => exact apply_ite Prod.fst _ _ _

/-- C3 counterexample: on `["/repos/project.git"]` the path ends with the
`.git` metadata suffix (so the bare branch is taken), yet the result keeps
the suffix — `replace(/\/\.git$/,"")` only strips a trailing `/.git`
segment, so the claimed "that path with the suffix removed" is false. -/
theorem determineWorktreeBase_strip_cex :
    determineWorktreeBase ["/repos/project.git"] = some "/repos/project.git" ∧
      ¬ determineWorktreeBase ["/repos/project.git"] = some "/repos/project" := by
  exact ⟨rfl, by decide⟩

/-- C3 (amended): for every non-empty worktree path list, if some path
ends with `.git` then the result is the first such path with a trailing
`/.git` segment removed (returned unchanged when its `.git` ending is not
preceded by `/`); otherwise the result is the entry of minimum string
length, ties resolved to the first-encountered entry. -/
theorem determineWorktreeBase_cases (paths : List String) (hne : ¬ paths = []) :
    (∀ bare, paths.find? (fun path => strEndsWith path ".git") = some bare →
        (∀ dir, bare = dir ++ "/.git" → determineWorktreeBase paths = some dir) ∧
        (strEndsWith bare "/.git" = false → determineWorktreeBase paths = some bare)) ∧
    (paths.find? (fun path => strEndsWith path ".git") = none →
      ∃ r, determineWorktreeBase paths = some r ∧ r ∈ paths ∧
        (∀ q ∈ paths, r.length ≤ q.length) ∧
        (∀ q ∈ paths, q.length ≤ r.length → paths.indexOf r ≤ paths.indexOf q)) := by
  constructor
  · intro bare hfind
    constructor
    · intro dir hdir
      subst hdir
      unfold determineWorktreeBase
      rw [hfind]
      show some (stripGitSuffix (dir ++ "/.git")) = some dir
      rw [stripGitSuffix_of_append]
    · intro hns
      unfold determineWorktreeBase
      rw [hfind]
      show some (stripGitSuffix bare) = some bare
      rw [stripGitSuffix_of_not_slashgit bare hns]
  · intro hfind
    cases paths with
    | nil => exact absurd rfl hne
    | cons first rest =>
      obtain ⟨hmem, hmin, hidx⟩ := foldl_shortest_spec first rest
      refine ⟨_, ?_, hmem, hmin, hidx⟩
      unfold determineWorktreeBase
      rw [hfind]

/-- Witness for the amended C3 at a concrete bare layout. -/
theorem determineWorktreeBase_cases_witness :
    determineWorktreeBase ["/w/repo/.git", "/w/repo/feat"] = some "/w/repo" :=
  ((determineWorktreeBase_cases ["/w/repo/.git", "/w/repo/feat"] (by decide)).1
    "/w/repo/.git" (by decide)).1 "/w/repo" (by decide)

/-- C9 counterexample: with the non-bare entry set `["/b", "/aaa"]` the
computed base is `"/b"` (minimum string length), but the lexicographically
least entry is `"/aaa"` (`"/aaa" < "/b"`), so the base is not the
lexicographically shortest path string. -/
theorem determineWorktreeBase_lex_cex :
    determineWorktreeBase ["/b", "/aaa"] = some "/b" ∧ ("/aaa" : String) < "/b" := by
  refine ⟨rfl, ?_⟩
  rw [String.lt_iff_toList_lt]
  decide

/-- C9 (amended): for every non-empty worktree entry set in which no path
ends with `.git` (standard, non-bare layout), the computed base is the
entry of minimum string LENGTH among all entries (not the lexicographic
minimum), ties resolved to the first-encountered entry. -/
theorem determineWorktreeBase_minLength (paths : List String) (hne : ¬ paths = [])
    (hnb : ∀ p ∈ paths, strEndsWith p ".git" = false) :
    ∃ r, determineWorktreeBase paths = some r ∧ r ∈ paths ∧
      (∀ q ∈ paths, r.length ≤ q.length) ∧
      (∀ q ∈ paths, q.length ≤ r.length → paths.indexOf r ≤ paths.indexOf q) := by
  have hfind : paths.find? (fun path => strEndsWith path ".git") = none :=
    List.find?_eq_none.mpr (fun x hx => by simp [hnb x hx])
  cases paths with
  | nil => exact absurd rfl hne
  | cons first rest =>
    obtain ⟨hmem, hmin, hidx⟩ := foldl_shortest_spec first rest
    refine ⟨_, ?_, hmem, hmin, hidx⟩
    unfold determineWorktreeBase
    rw [hfind]

/-- Witness for the amended C9 at a concrete standard layout. -/
theorem determineWorktreeBase_minLength_witness :
    ∃ r, determineWorktreeBase ["/repo", "/repo/feature"] = some r ∧
      r ∈ ["/repo", "/repo/feature"] ∧
      (∀ q ∈ ["/repo", "/repo/feature"], r.length ≤ q.length) ∧
      (∀ q ∈ ["/repo", "/repo/feature"], q.length ≤ r.length →
        (["/repo", "/repo/feature"] : List String).indexOf r ≤
          (["/repo", "/repo/feature"] : List String).indexOf q) :=
  determineWorktreeBase_minLength ["/repo", "/repo/feature"] (by decide) (by decide)

/-- C10: when the first path ending in `.git` does not end in `/.git`
(for example a bare clone named `project.git`), `determineWorktreeBase`
takes the bare branch but returns that path unchanged, because the
suffix-stripping step only removes a trailing `/.git` segment. -/
theorem determineWorktreeBase_bare_unchanged (paths : List String) (bare : String)
    (hfind : paths.find? (fun path => strEndsWith path ".git") = some bare)
    (hns : strEndsWith bare "/.git" = false) :
    determineWorktreeBase paths = some bare := by
  unfold determineWorktreeBase
  rw [hfind]
  show some (stripGitSuffix bare) = some bare
  rw [stripGitSuffix_of_not_slashgit bare hns]

/-- Witness for C10 at a concrete bare clone path. -/
theorem determineWorktreeBase_bare_unchanged_witness :
    determineWorktreeBase ["/srv/code.git", "/srv/code"] = some "/srv/code.git" :=
  determineWorktreeBase_bare_unchanged ["/srv/code.git", "/srv/code"] "/srv/code.git"
    (by decide) (by decide)

/-! ## Claims about the `add` lifecycle -/

/-- C1: in a valid repository, `add branchName` tests three mutually
exclusive cases in order: if `base/branchName` is already in the worktree
path list it performs the Switch transition (emits that path, mutates
nothing); else if `branchName` exists locally it registers a worktree
binding `base/branchName` to that branch; else it registers a worktree at
`base/branchName` creating `branchName` from the resolved main branch. -/
theorem addMain_three_cases (st : GitState) (branchName : String)
    (paths : List String) (base : String)
    (hrepo : st.validRepo = true)
    (hw : getWorktreePaths st = some paths)
    (hb : determineWorktreeBase paths = some base) :
    (paths.contains (base ++ "/" ++ branchName) = true →
      (addMain st [branchName]).transition = some AddTransition.switch ∧
      (addMain st [branchName]).effects = [] ∧
      (addMain st [branchName]).emitted = [base ++ "/" ++ branchName]) ∧
    (paths.contains (base ++ "/" ++ branchName) = false →
      branchExistsLocally st branchName = true →
      (addMain st [branchName]).transition = some AddTransition.createFromExisting ∧
      (addMain st [branchName]).effects
        = [Effect.worktreeAdd (base ++ "/" ++ branchName) branchName]) ∧
    (paths.contains (base ++ "/" ++ branchName) = false →
      branchExistsLocally st branchName = false →
      (addMain st [branchName]).transition = some AddTransition.createWithNewBranch ∧
      (addMain st [branchName]).effects
        = [Effect.worktreeAddNew (base ++ "/" ++ branchName)
            (discoverMainBranch st) branchName]) := by
  have hne := targetPath_ne_empty base branchName
  have htruthy := jsTruthy_find_eq_contains paths (base ++ "/" ++ branchName) hne
  refine ⟨?_, ?_, ?_⟩
  · intro hcont
    simp only [addMain, hrepo, if_true, hw, hb, htruthy, hcont]
    exact ⟨trivial, trivial, trivial⟩
  · intro hcont hloc
    cases hws : st.worktreeAddSucceeds with
    | true =>
      simp only [addMain, hrepo, if_true, hw, hb, htruthy, hcont, hloc, hws,
        Bool.false_eq_true, if_false]
      exact ⟨trivial, trivial⟩
    | false =>
      simp only [addMain, hrepo, if_true, hw, hb, htruthy, hcont, hloc, hws,
        Bool.false_eq_true, if_false]
      exact ⟨trivial, trivial⟩
  · intro hcont hloc
    cases hws : st.worktreeAddSucceeds with
    | true =>
      simp only [addMain, hrepo, if_true, hw, hb, htruthy, hcont, hloc, hws,
        Bool.false_eq_true, if_false]
      exact ⟨trivial, trivial⟩
    | false =>
      simp only [addMain, hrepo, if_true, hw, hb, htruthy, hcont, hloc, hws,
        Bool.false_eq_true, if_false]
      exact ⟨trivial, trivial⟩

/-- Witness for C1 at a concrete state: `/repo/feat` is already in the
worktree list, so `add feat` takes the Switch transition. -/
theorem addMain_three_cases_witness :
    (addMain witnessSt ["feat"]).transition = some AddTransition.switch ∧
    (addMain witnessSt ["feat"]).effects = [] ∧
    (addMain witnessSt ["feat"]).emitted = ["/repo" ++ "/" ++ "feat"] :=
  (addMain_three_cases witnessSt "feat" ["/repo", "/repo/feat"] "/repo"
    rfl (by decide) (by decide)).1 (by decide)

/-! ## Claims about the `remove` lifecycle -/

/-- C5: a `remove` invocation whose current directory is not a worktree
distinct from the base (it is the base itself, or it is not in the
worktree-entry set) fails with the NotInWorktree classification, exits
non-zero, and performs no mutation. -/
theorem removeMain_notInWorktree (st : GitState) (args : List String)
    (paths : List String) (base : String)
    (hrepo : st.validRepo = true)
    (hw : getWorktreePaths st = some paths)
    (hb : determineWorktreeBase paths = some base)
    (hnot : st.currentDir = base ∨ paths.contains st.currentDir = false) :
    (removeMain st args).exitCode = 1 ∧
    (removeMain st args).failure = some FailureKind.notInWorktree ∧
    (removeMain st args).effects = [] ∧
    (removeMain st args).emitted = [] := by
  have hguard : isCurrentDirectoryWorktree st = false := by
    unfold isCurrentDirectoryWorktree
    simp only [hw, hb]
    show (!(st.currentDir == base) && paths.contains st.currentDir) = false
    cases hnot with
    | inl h =>
      have hbeq : (st.currentDir == base) = true := beq_iff_eq.mpr h
      rw [hbeq]
      rfl
    | inr h => rw [h, Bool.and_false]
  simp only [removeMain, hrepo, if_true, hguard, Bool.false_eq_true, if_false]
  exact ⟨trivial, trivial, trivial, trivial⟩

/-- Witness for C5: running `remove` from the base `/repo` itself. -/
theorem removeMain_notInWorktree_witness :
    (removeMain { witnessSt with currentDir := "/repo" } []).exitCode = 1 ∧
    (removeMain { witnessSt with currentDir := "/repo" } []).failure
      = some FailureKind.notInWorktree ∧
    (removeMain { witnessSt with currentDir := "/repo" } []).effects = [] ∧
    (removeMain { witnessSt with currentDir := "/repo" } []).emitted = [] :=
  removeMain_notInWorktree { witnessSt with currentDir := "/repo" } []
    ["/repo", "/repo/feat"] "/repo" rfl (by decide) (by decide) (Or.inl (by decide))

/-- C7: during `remove`, after confirmation, when checking out the main
branch at the base fails (the branch being exclusively checked out in
another worktree) and the detached checkout of the same commit succeeds,
the operation does not fail: it issues the detached checkout as a
fallback and proceeds to remove the worktree, exiting 0. -/
theorem removeMain_detach_fallback (st : GitState) (args : List String)
    (paths : List String) (base : String)
    (hrepo : st.validRepo = true)
    (hw : getWorktreePaths st = some paths)
    (hb : determineWorktreeBase paths = some base)
    (hcd : (st.currentDir == base) = false)
    (hmem : paths.contains st.currentDir = true)
    (hconf : askForConfirmation st = true)
    (hco : st.checkoutMainSucceeds = false)
    (hdet : st.detachSucceeds = true)
    (hrm : st.worktreeRemoveSucceeds = true) :
    (removeMain st args).exitCode = 0 ∧
    (removeMain st args).failure = none ∧
    (removeMain st args).effects
      = [Effect.chdir base, Effect.checkout (discoverMainBranch st),
         Effect.checkoutDetach (discoverMainBranch st),
         Effect.worktreeRemove st.currentDir] := by
  have hguard : isCurrentDirectoryWorktree st = true := by
    unfold isCurrentDirectoryWorktree
    simp only [hw, hb]
    show (!(st.currentDir == base) && paths.contains st.currentDir) = true
    rw [hcd, hmem]
    rfl
  simp only [removeMain, hrepo, if_true, hguard, hconf, Bool.or_true, hw, hb,
    hco, Bool.false_eq_true, if_false, hdet, removeFinish, hrm]
  refine ⟨trivial, trivial, ?_⟩
  simp

/-- Witness for C7 at a concrete state where `git checkout main` fails. -/
theorem removeMain_detach_fallback_witness :
    (removeMain { witnessSt with answer := some "yes", checkoutMainSucceeds := false }
        []).exitCode = 0 ∧
    (removeMain { witnessSt with answer := some "yes", checkoutMainSucceeds := false }
        []).failure = none ∧
    (removeMain { witnessSt with answer := some "yes", checkoutMainSucceeds := false }
        []).effects
      = [Effect.chdir "/repo",
         Effect.checkout (discoverMainBranch
           { witnessSt with answer := some "yes", checkoutMainSucceeds := false }),
         Effect.checkoutDetach (discoverMainBranch
           { witnessSt with answer := some "yes", checkoutMainSucceeds := false }),
         Effect.worktreeRemove "/repo/feat"] :=
  removeMain_detach_fallback
    { witnessSt with answer := some "yes", checkoutMainSucceeds := false } []
    ["/repo", "/repo/feat"] "/repo" rfl (by decide) (by decide) (by decide)
    (by decide) (by decide) (by decide) (by decide) (by decide)

/-- C8 counterexample: with a valid repository whose `git worktree list`
query errors, `remove` exits 1 but reports the NotInWorktree failure kind
(the error is swallowed by `isCurrentDirectoryWorktree`), not the
BackendUnavailable / backend-error classification the claim requires. -/
theorem removeMain_listError_cex :
    (removeMain { witnessSt with worktreeListStdout := none } []).exitCode = 1 ∧
    (removeMain { witnessSt with worktreeListStdout := none } []).failure
      = some FailureKind.notInWorktree ∧
    ¬ (removeMain { witnessSt with worktreeListStdout := none } []).failure
      = some FailureKind.backendError := by
  exact ⟨rfl, rfl, by decide⟩

/-- C8 (amended): in a valid repository, when the worktree-list query
errors, the `remove` operation still aborts before any mutation with
exit code 1 — but it is classified as NotInWorktree (the worktree guard
swallows the backend error), not as a backend failure. -/
theorem removeMain_listError (st : GitState) (args : List String)
    (hrepo : st.validRepo = true)
    (hnone : st.worktreeListStdout = none) :
    (removeMain st args).exitCode = 1 ∧
    (removeMain st args).effects = [] ∧
    (removeMain st args).emitted = [] ∧
    (removeMain st args).failure = some FailureKind.notInWorktree := by
  have hguard : isCurrentDirectoryWorktree st = false := by
    unfold isCurrentDirectoryWorktree
    simp [getWorktreePaths, hnone]
  simp only [removeMain, hrepo, if_true, hguard, Bool.false_eq_true, if_false]
  exact ⟨trivial, trivial, trivial, trivial⟩

/-- Witness for the amended C8. -/
theorem removeMain_listError_witness :
    (removeMain { witnessSt with worktreeListStdout := none } ["-f"]).exitCode = 1 ∧
    (removeMain { witnessSt with worktreeListStdout := none } ["-f"]).effects = [] ∧
    (removeMain { witnessSt with worktreeListStdout := none } ["-f"]).emitted = [] ∧
    (removeMain { witnessSt with worktreeListStdout := none } ["-f"]).failure
      = some FailureKind.notInWorktree :=
  removeMain_listError { witnessSt with worktreeListStdout := none } ["-f"] rfl rfl

/-- C6 counterexample: a declined non-force `remove` exits 0 and mutates
nothing, but its transcript is not just an informational cancellation
message — the three status lines printed before the prompt precede it —
so "emits no output beyond an informational cancellation message" is
false of the invocation's output as a whole. -/
theorem removeMain_cancel_output_cex :
    (removeMain witnessSt []).exitCode = 0 ∧
    (removeMain witnessSt []).cancelled = true ∧
    ¬ (removeMain witnessSt []).output = ["❌ Operation cancelled."] := by
  exact ⟨rfl, rfl, by decide⟩

/-- C6 (amended): a non-force `remove` whose confirmation answer is not
an affirmative token (including an interrupted prompt) reaches the
terminal Cancelled state: exit code 0, no mutation, and — beyond the
three informational status lines printed before the prompt — only the
informational cancellation message, with no structured `WORKTREE_PATH:`
line anywhere in the output. -/
theorem removeMain_cancelled (st : GitState) (args : List String)
    (hrepo : st.validRepo = true)
    (hwt : isCurrentDirectoryWorktree st = true)
    (hf1 : args.contains "--force" = false)
    (hf2 : args.contains "-f" = false)
    (hans : askForConfirmation st = false) :
    (removeMain st args).exitCode = 0 ∧
    (removeMain st args).cancelled = true ∧
    (removeMain st args).effects = [] ∧
    (removeMain st args).emitted = [] ∧
    (removeMain st args).output
      = ["📍 Current worktree: " ++ lastPathComponent st.currentDir,
         "🌿 Current branch: " ++ st.currentBranchAt st.currentDir,
         "📁 Path: " ++ st.currentDir,
         "❌ Operation cancelled."] ∧
    countStructured (removeMain st args).output = 0 := by
  simp only [removeMain, hrepo, if_true, hwt, hf1, hf2, hans, Bool.or_self,
    Bool.or_false, Bool.false_eq_true, if_false]
  refine ⟨trivial, trivial, trivial, trivial, rfl, rfl⟩

/-- Witness for the amended C6 at a concrete declined prompt. -/
theorem removeMain_cancelled_witness :
    (removeMain witnessSt []).exitCode = 0 ∧
    (removeMain witnessSt []).cancelled = true ∧
    (removeMain witnessSt []).effects = [] ∧
    (removeMain witnessSt []).emitted = [] ∧
    (removeMain witnessSt []).output
      = ["📍 Current worktree: feat", "🌿 Current branch: main",
         "📁 Path: /repo/feat", "❌ Operation cancelled."] ∧
    countStructured (removeMain witnessSt []).output = 0 :=
  removeMain_cancelled witnessSt [] rfl (by decide) rfl rfl (by decide)

/-! ## Claims about the structured output line -/

theorem isWP_append_marker (b : String) :
    isWorktreePathLine ("WORKTREE_PATH:" ++ b) = true := by
  unfold isWorktreePathLine
  rw [String.data_append, List.isPrefixOf_iff_prefix]
  exact List.prefix_append _ _

theorem countStructured_single_marker (b : String) :
    countStructured ["WORKTREE_PATH:" ++ b] = 1 := by
  unfold countStructured
  rw [List.countP_cons, isWP_append_marker]
  simp

theorem countStructured_removeFinish (st : GitState) (force : Bool)
    (dir base main : String) (out : List String) (effs : List Effect)
    (hout : countStructured out = 0)
    (hrm : st.worktreeRemoveSucceeds = true) :
    countStructured (removeFinish st force dir base main out effs).output
      = if force then 1 else 0 := by
  have h1 : countStructured ["🗑️  Removing worktree: " ++ dir] = 0 := rfl
  have h2 : countStructured ["✅ Worktree removed successfully"] = 0 := rfl
  have h3 := countStructured_single_marker base
  have h4 : countStructured ["🌿 On branch: " ++ st.currentBranchAt base] = 0 := rfl
  have h5 : countStructured
      ["💡 Tip: You might want to switch to the main branch (" ++ main ++ ")"] = 0 := rfl
  have h6 : countStructured
      (if st.currentBranchAt base ≠ main then
        ["💡 Tip: You might want to switch to the main branch (" ++ main ++ ")"]
      else []) = 0 := by
    by_cases hcond : st.currentBranchAt base ≠ main
    · rw [if_pos hcond]; exact h5
    · rw [if_neg hcond]; rfl
  unfold removeFinish
  simp only [hrm, if_true]
  cases force with
  | true =>
    simp only [if_true, countStructured_append, hout, h1, h2, h3, h4, h6]
  | false =>
    simp only [Bool.false_eq_true, if_false, countStructured_append,
      hout, h1, h2, h4, h6]

/-- C4 counterexample: a successful non-force `remove` (user answered
`y`) exits 0 without being cancelled, yet emits zero structured
`WORKTREE_PATH:` lines — not exactly one as claimed. -/
theorem structured_line_cex :
    (removeMain { witnessSt with answer := some "y" } []).exitCode = 0 ∧
    (removeMain { witnessSt with answer := some "y" } []).cancelled = false ∧
    countStructured (removeMain { witnessSt with answer := some "y" } []).output = 0 ∧
    ¬ countStructured (removeMain { witnessSt with answer := some "y" } []).output = 1 := by
  exact ⟨rfl, rfl, rfl, by decide⟩

/-- C4 (amended): every successful `add` emits exactly one structured
`WORKTREE_PATH:` line; a successful (non-cancelled) `remove` emits
exactly one structured line in force mode and zero otherwise. -/
theorem structured_line_count :
    (∀ (st : GitState) (args : List String),
      (addMain st args).exitCode = 0 →
        countStructured (addMain st args).output = 1) ∧
    (∀ (st : GitState) (args : List String),
      (removeMain st args).exitCode = 0 →
        (removeMain st args).cancelled = false →
          countStructured (removeMain st args).output
            = (if args.contains "--force" || args.contains "-f" then 1 else 0)) := by
  constructor
  · intro st args h
    cases args with
    | nil => simp [addMain] at h
    | cons branchName rest =>
      unfold addMain at h ⊢
      cases hrepo : st.validRepo with
      | false => simp [hrepo] at h
      | true =>
        simp only [hrepo, if_true] at h ⊢
        cases hw : getWorktreePaths st with
        | none => simp [hw] at h
        | some paths =>
          simp only [hw] at h ⊢
          cases hb : determineWorktreeBase paths with
          | none => simp [hb] at h
          | some base =>
            simp only [hb] at h ⊢
            by_cases htr :
                jsTruthyOptStr
                  (paths.find? fun p => p == base ++ "/" ++ branchName) = true
            · simp only [htr, if_true]
              rw [countStructured_append, countStructured_discoverLog]
              show (0 : Nat) + countStructured
                (["Switched to existing worktree: " ++ (base ++ "/" ++ branchName),
                  "On branch: " ++ st.currentBranchAt (base ++ "/" ++ branchName)]
                  ++ ["WORKTREE_PATH:" ++ (base ++ "/" ++ branchName)]) = 1
              rw [countStructured_append, countStructured_single_marker]
              rfl
            · rw [Bool.not_eq_true] at htr
              simp only [htr, Bool.false_eq_true, if_false] at h ⊢
              cases hloc : branchExistsLocally st branchName with
              | true =>
                simp only [hloc, if_true] at h ⊢
                cases hws : st.worktreeAddSucceeds with
                | false => simp [hws] at h
                | true =>
                  simp only [hws, if_true]
                  rw [countStructured_append, countStructured_discoverLog]
                  show (0 : Nat) + countStructured
                    (["Created worktree with existing branch: "
                        ++ (base ++ "/" ++ branchName),
                      "On branch: " ++ st.currentBranchAt (base ++ "/" ++ branchName)]
                      ++ ["WORKTREE_PATH:" ++ (base ++ "/" ++ branchName)]) = 1
                  rw [countStructured_append, countStructured_single_marker]
                  rfl
              | false =>
                simp only [hloc, Bool.false_eq_true, if_false] at h ⊢
                cases hws : st.worktreeAddSucceeds with
                | false => simp [hws] at h
                | true =>
                  simp only [hws, if_true]
                  rw [countStructured_append, countStructured_discoverLog]
                  show (0 : Nat) + countStructured
                    (["Created and switched to new worktree: "
                        ++ (base ++ "/" ++ branchName),
                      "Created new branch \x27" ++ branchName ++ "\x27 from \x27"
                        ++ discoverMainBranch st ++ "\x27",
                      "On branch: " ++ st.currentBranchAt (base ++ "/" ++ branchName)]
                      ++ ["WORKTREE_PATH:" ++ (base ++ "/" ++ branchName)]) = 1
                  rw [countStructured_append, countStructured_single_marker]
                  rfl
  · intro st args h hc
    unfold removeMain at h hc ⊢
    cases hrepo : st.validRepo with
    | false => simp [hrepo] at h
    | true =>
      simp only [hrepo, if_true] at h hc ⊢
      cases hwt : isCurrentDirectoryWorktree st with
      | false => simp [hwt] at h
      | true =>
        simp only [hwt, if_true] at h hc ⊢
        by_cases hcf :
            (args.contains "--force" || args.contains "-f"
              || askForConfirmation st) = true
        · simp only [hcf, if_true] at h hc ⊢
          cases hw : getWorktreePaths st with
          | none => simp [hw] at h
          | some paths =>
            simp only [hw] at h hc ⊢
            cases hb : determineWorktreeBase paths with
            | none => simp [hb] at h
            | some base =>
              simp only [hb] at h hc ⊢
              have hhdr : countStructured
                  ["📍 Current worktree: " ++ lastPathComponent st.currentDir,
                   "🌿 Current branch: " ++ st.currentBranchAt st.currentDir,
                   "📁 Path: " ++ st.currentDir] = 0 := rfl
              have htl : countStructured
                  ["📂 Changed to main repository: " ++ base,
                   "🌿 Switching to main branch: " ++ discoverMainBranch st] = 0 := rfl
              have hwarn : countStructured
                  ["⚠️  Main branch is checked out elsewhere, using detached HEAD instead"]
                  = 0 := rfl
              cases hco : st.checkoutMainSucceeds with
              | true =>
                simp only [hco, if_true] at h ⊢
                cases hrm : st.worktreeRemoveSucceeds with
                | false => simp [removeFinish, hrm] at h
                | true =>
                  rw [countStructured_removeFinish st _ _ _ _ _ _ ?_ hrm]
                  rw [countStructured_append, countStructured_append, hhdr,
                    countStructured_discoverLog, htl]
              | false =>
                simp only [hco, Bool.false_eq_true, if_false] at h ⊢
                cases hdet : st.detachSucceeds with
                | false => simp [hdet] at h
                | true =>
                  simp only [hdet, if_true] at h ⊢
                  cases hrm : st.worktreeRemoveSucceeds with
                  | false => simp [removeFinish, hrm] at h
                  | true =>
                    rw [countStructured_removeFinish st _ _ _ _ _ _ ?_ hrm]
                    rw [countStructured_append, countStructured_append,
                      countStructured_append, hhdr, countStructured_discoverLog,
                      htl, hwarn]
        · rw [Bool.not_eq_true] at hcf
          simp only [hcf, Bool.false_eq_true, if_false] at hc
          simp at hc

/-- Witness for the amended C4: a successful `add` and a successful
force-mode `remove`, each emitting exactly one structured line. -/
theorem structured_line_count_witness :
    countStructured (addMain witnessSt ["feat"]).output = 1 ∧
    countStructured
      (removeMain { witnessSt with answer := some "y" } ["--force"]).output = 1 := by
  constructor
  · exact structured_line_count.1 witnessSt ["feat"] (by decide)
  · exact (structured_line_count.2 { witnessSt with answer := some "y" } ["--force"]
      (by decide) (by decide)).trans (by decide)
